import Mathlib

/-!
Verification of the llm-debate experiment harness.

This file gives a shallow embedding of the three source modules
(`data_structures.py`, `api.py`, `functions.py`) and proves or refutes the
documented properties of the system.

Modelling conventions:
* Python `str` is modelled by Lean `String` (operated on via `List Char`).
* Python exceptions are modelled by `Except PyError`; `assert` statements
  become `Except.error (.assertionError msg)`, `raise ValueError` becomes
  `Except.error (.valueError msg)`, a failing list index becomes
  `Except.error (.indexError msg)`.
* Python `dict` (insertion-ordered, last value wins on key collision, the
  colliding key keeps its first position) is modelled by an association list
  `List (Int × β)` built with `dictUpsert`.
* Python UUIDs are modelled by `Nat` identifiers, `int` question ids by `Int`.
* Wall-clock milliseconds are modelled by `ℚ` (Python uses floats; the
  quantities involved here are exact decimals).
-/

/-- Python exception classes that the modelled code can raise. -/
inductive PyError : Type where
  | assertionError (msg : String)
  | valueError (msg : String)
  | indexError (msg : String)
deriving DecidableEq

/-- `startsWithList n h = true` iff the list `n` is an initial segment of `h`. -/
def startsWithList : List Char → List Char → Bool
  | [], _ => true
  | _ :: _, [] => false
  | a :: as, b :: bs => a == b && startsWithList as bs

/-- `containsList n h = true` iff `n` occurs as a contiguous sublist of `h`
(the semantics of Python's `n in h` for strings). -/
def containsList (needle : List Char) : List Char → Bool
  | [] => startsWithList needle []
  | h :: t => startsWithList needle (h :: t) || containsList needle t

/-- Python's `needle in hay` substring test. -/
def containsStr (hay needle : String) : Bool :=
  containsList needle.toList hay.toList

/-- Python's `str.lower()` (ASCII is all the source ever passes through it). -/
def strLower (s : String) : String :=
  (s.toList.map Char.toLower).asString

/-- `index_to_label` from `data_structures.py`:
`["A", "B", "C", "D"][index]`, `none` standing for Python's IndexError. -/
def index_to_label (index : Nat) : Option String :=
  ["A", "B", "C", "D"][index]?

/-- `MMLUMathQuestion` from `data_structures.py`. -/
structure MMLUMathQuestion where
  id : Int
  content : String
  options : List String
  correct_option_index : Nat
deriving DecidableEq

/-- `ZeroShotFourOptionResponse` from `data_structures.py`.  `model_id` keeps
the source's string representation of the `MODEL_IDS` literal type. -/
structure ZeroShotFourOptionResponse where
  id : Nat
  question_id : Int
  response : String
  model_id : String
  is_correct : Option Bool := none
deriving DecidableEq

/-- `ZeroShotFourOptionResponse.get_is_correct`: assert matching ids, then
test whether the correct option's letter label occurs in the raw response. -/
def ZeroShotFourOptionResponse.get_is_correct
    (self : ZeroShotFourOptionResponse) (question : MMLUMathQuestion) :
    Except PyError Bool :=
  if self.question_id ≠ question.id then
    .error (.assertionError "Question ID mismatch.")
  else
    match index_to_label question.correct_option_index with
    | none => .error (.indexError "list index out of range")
    | some correct_label => .ok (containsStr self.response correct_label)

/-- `ZeroShotFourOptionResponse.set_is_correct`: fill in the derived flag,
catching `AssertionError` and `ValueError` (and only those). -/
def ZeroShotFourOptionResponse.set_is_correct
    (self : ZeroShotFourOptionResponse) (question : MMLUMathQuestion) :
    Except PyError ZeroShotFourOptionResponse :=
  match self.get_is_correct question with
  | .ok b => .ok { self with is_correct := some b }
  | .error (.assertionError _) => .ok self
  | .error (.valueError _) => .ok self
  | .error e => .error e

/-- `SelectedOptionArgumentResponse` from `data_structures.py`. -/
structure SelectedOptionArgumentResponse where
  id : Nat
  question_id : Int
  selected_option_index : Nat
  model_id : String
  requested_response_length : String
  argument : String
deriving DecidableEq

/-- `SelectedOptionArgumentResponse.is_correct_option`: assert matching ids,
then compare the argued option index with the correct one. -/
def SelectedOptionArgumentResponse.is_correct_option
    (self : SelectedOptionArgumentResponse) (question : MMLUMathQuestion) :
    Except PyError Bool :=
  if self.question_id ≠ question.id then
    .error (.assertionError "")
  else
    .ok (self.selected_option_index == question.correct_option_index)

/-- `ArgumentClassificationResponse` from `data_structures.py`. -/
structure ArgumentClassificationResponse where
  id : Nat
  argument_id : Nat
  model_id : String
  classification : String
  classification_explanation : String
  is_correct : Option Bool := none
deriving DecidableEq

/-- `ArgumentClassificationResponse.get_is_correct`: assert matching ids, then
branch on case-insensitive substring tests of the verdict text, checking
"incorrect" before "correct"; neither keyword raises a `ValueError`. -/
def ArgumentClassificationResponse.get_is_correct
    (self : ArgumentClassificationResponse) (question : MMLUMathQuestion)
    (argument : SelectedOptionArgumentResponse) : Except PyError Bool :=
  if self.argument_id ≠ argument.id then
    .error (.assertionError "Argument ID mismatch.")
  else if argument.question_id ≠ question.id then
    .error (.assertionError "Question ID mismatch.")
  else
    match argument.is_correct_option question with
    | .error e => .error e
    | .ok argument_is_for_correct_option =>
      if containsStr (strLower self.classification) "incorrect" then
        .ok (!argument_is_for_correct_option)
      else if containsStr (strLower self.classification) "correct" then
        .ok argument_is_for_correct_option
      else
        .error (.valueError
          ("Could not determine correctness from classification response: "
            ++ self.classification))

/-- `ArgumentClassificationResponse.set_is_correct`: fill in the derived flag,
catching `AssertionError` and `ValueError`; those are the only classes
`get_is_correct` raises, so the result is a plain record. -/
def ArgumentClassificationResponse.set_is_correct
    (self : ArgumentClassificationResponse) (question : MMLUMathQuestion)
    (argument : SelectedOptionArgumentResponse) : ArgumentClassificationResponse :=
  match self.get_is_correct question argument with
  | .ok b => { self with is_correct := some b }
  | .error _ => self

/-- `BaseTwoOptionResponse` from `data_structures.py` (the scoring logic shared
by the zero-shot and debate two-option variants). -/
structure BaseTwoOptionResponse where
  id : Nat
  question_id : Int
  correct_option_index : Nat
  incorrect_option_index : Nat
  ordering : String
  model_id : String
  response : String
deriving DecidableEq

/-- `BaseTwoOptionResponse.get_is_correct`: the prompt shows the two options as
"A" and "B"; the expected label is "A" for `correct_first` orderings and "B"
otherwise, and correctness is a substring test on the raw response. -/
def BaseTwoOptionResponse.get_is_correct
    (self : BaseTwoOptionResponse) (question : MMLUMathQuestion) :
    Except PyError Bool :=
  if self.question_id ≠ question.id then
    .error (.assertionError "Question ID mismatch.")
  else
    let correct_label := if self.ordering == "correct_first" then "A" else "B"
    .ok (containsStr self.response correct_label)

/-- Whitespace per Python's `str.isspace` / `str.strip` (the Unicode
whitespace code points recognised by CPython). -/
def isPySpace (c : Char) : Bool :=
  c == ' ' || c == '\t' || c == '\n' || c == '\r' || c == '\x0b' || c == '\x0c' ||
  c == '\x1c' || c == '\x1d' || c == '\x1e' || c == '\x1f' || c == '\x85' ||
  c == '\xa0' || c == ' ' || (' ' ≤ c && c ≤ ' ') ||
  c == ' ' || c == ' ' || c == ' ' || c == ' ' || c == '　'

/-- Python's `str.replace(cc, c)` for a two-character pattern `[c, c]` and a
one-character replacement `[c]`: a single left-to-right, non-overlapping scan.
Instantiated at `' '` it is `.replace("  ", " ")`, at `'\n'` it is
`.replace("\n\n", "\n")` from `llm_api_call` in `api.py`. -/
def collapsePairs (c : Char) : List Char → List Char
  | [] => []
  | [a] => [a]
  | a :: b :: rest =>
    if a == c && b == c then c :: collapsePairs c rest
    else a :: collapsePairs c (b :: rest)

/-- Python's `.replace("    ", " ")` from `llm_api_call` in `api.py`: a single
left-to-right, non-overlapping scan for four consecutive spaces. -/
def replace4sp : List Char → List Char
  | a :: b :: c :: d :: rest =>
    if a == ' ' && b == ' ' && c == ' ' && d == ' ' then ' ' :: replace4sp rest
    else a :: replace4sp (b :: c :: d :: rest)
  | l => l

/-- Remove trailing whitespace (the right half of Python's `str.strip()`,
equivalent to `reverse ∘ dropWhile isPySpace ∘ reverse`). -/
def dropTrail : List Char → List Char
  | [] => []
  | a :: rest =>
    match dropTrail rest with
    | [] => if isPySpace a then [] else [a]
    | r => a :: r

/-- Python's `str.strip()`: drop leading and trailing whitespace. -/
def pyStrip (l : List Char) : List Char :=
  dropTrail (l.dropWhile isPySpace)

/-- The whitespace-normalization pipeline of `llm_api_call` on `List Char`:
`.strip().replace("  ", " ").replace("    ", " ").replace("\n\n", "\n")`,
four independent sequential passes in exactly the source's order. -/
def normList (l : List Char) : List Char :=
  collapsePairs '\n' (replace4sp (collapsePairs ' ' (pyStrip l)))

/-- The Gateway's message-content whitespace normalization from `api.py`. -/
def normalizeContent (s : String) : String :=
  (normList s.toList).asString

/-- `LLMMessage` from `api.py` (`role` is one of `"user"`/`"assistant"`;
the gateway never inspects it). -/
structure LLMMessage where
  role : String
  content : String
deriving DecidableEq

/-- The per-message preprocessing of `llm_api_call`. -/
def normalizeMessage (m : LLMMessage) : LLMMessage :=
  { role := m.role, content := normalizeContent m.content }

/-- The outbound vendor HTTP request that `llm_api_call` would issue: one
constructor per vendor client, carrying the request parameters the source
passes (`model`, normalized `messages`, `temperature`, `max_tokens`). -/
inductive VendorRequest : Type where
  | openaiChat (model : String) (messages : List LLMMessage)
      (temperature : ℚ) (max_tokens : Nat)
  | anthropicMessages (model : String) (messages : List LLMMessage)
      (temperature : ℚ) (max_tokens : Nat)
deriving DecidableEq

/-- The dispatch phase of `llm_api_call` from `api.py`: normalize every
message's content, then match on `model_id`.  A supported id yields the
vendor request that would be sent over the network; an unsupported id raises
`ValueError` without producing any request. -/
def llm_api_call_request (model_id : String) (messages : List LLMMessage) :
    Except PyError VendorRequest :=
  let msgs := messages.map normalizeMessage
  if model_id == "gpt-4-turbo-2024-04-09" then
    .ok (.openaiChat model_id msgs 0 1024)
  else if model_id == "claude-3-haiku-20240307" ||
      model_id == "claude-3-sonnet-20240229" ||
      model_id == "claude-3-opus-20240229" then
    .ok (.anthropicMessages model_id msgs 0 1024)
  else
    .error (.valueError ("Unsupported `model_id`: " ++ model_id))

/-- The three Anthropic model ids (the second vendor family of `api.py`). -/
def anthropic_model_ids : List String :=
  ["claude-3-haiku-20240307", "claude-3-sonnet-20240229", "claude-3-opus-20240229"]

/-- The post-response sleep of `llm_api_call`, in milliseconds, as a function
of the call's wall-clock elapsed time: for the Anthropic family, sleep
`1500 - elapsed` if the call took under 1000 ms, otherwise do not sleep; the
OpenAI branch never sleeps. -/
def gateway_sleep_ms (model_id : String) (time_taken_in_ms : ℚ) : ℚ :=
  if model_id ∈ anthropic_model_ids then
    if time_taken_in_ms < 1000 then 1500 - time_taken_in_ms else 0
  else 0

/-- Total wall-clock time one gateway call occupies: the vendor round-trip
plus the rate-limit sleep. -/
def call_total_ms (model_id : String) (time_taken_in_ms : ℚ) : ℚ :=
  time_taken_in_ms + gateway_sleep_ms model_id time_taken_in_ms

/-- Error classes for `select_subset_of_mmlu_questions`, following the spec's
taxonomy: the source's `assert desired_subset_size <= number_of_questions` is
the InvalidArgument case, the two response-count asserts are the
InvariantViolation cases, and a failed dict subscript is a KeyError. -/
inductive SelectorError : Type where
  | invalidArgument (msg : String)
  | invariantViolation (msg : String)
  | keyError (msg : String)
deriving DecidableEq

/-- Assignment `m[k] = v` on a Python dict modelled as an association list:
an existing key keeps its position and gets the new value, a new key is
appended. -/
def dictUpsert {β : Type} (m : List (Int × β)) (k : Int) (v : β) :
    List (Int × β) :=
  if m.any (fun p => p.1 == k) then
    m.map (fun p => if p.1 == k then (k, v) else p)
  else
    m ++ [(k, v)]

/-- A Python dict comprehension `{key(x): value(x) for x in xs}` modelled as a
left fold of `dictUpsert` over the already-keyed pairs. -/
def dictOfPairs {β : Type} (ps : List (Int × β)) : List (Int × β) :=
  ps.foldl (fun m p => dictUpsert m p.1 p.2) []

/-- Python `m[k]` read access (`none` standing for a KeyError). -/
def dictLookup {β : Type} (m : List (Int × β)) (k : Int) : Option β :=
  (m.find? (fun p => p.1 == k)).map Prod.snd

/-- Python's `int(b)` on a bool. -/
def boolToInt (b : Bool) : Int :=
  if b then 1 else 0

/-- The expert model id used by `select_subset_of_mmlu_questions`. -/
def strong_model_id : String := "gpt-4-turbo-2024-04-09"

/-- The non-expert model id used by `select_subset_of_mmlu_questions`. -/
def weak_model_id : String := "claude-3-haiku-20240307"

/-- The `differences` loop of `select_subset_of_mmlu_questions`: iterate the
question ids in table order, subscript both response dicts (KeyError if a
question has no response), skip questions where either correctness flag is
still `None`, and record `int(expert.is_correct) - int(non_expert.is_correct)`.
The keys come from a Python dict and are therefore distinct, so the
insertion-ordered result dict is a plain list of pairs. -/
def computeDifferences
    (expert_responses non_expert_responses : List (Int × ZeroShotFourOptionResponse)) :
    List Int → Except SelectorError (List (Int × Int))
  | [] => .ok []
  | question_id :: rest =>
    match dictLookup expert_responses question_id,
        dictLookup non_expert_responses question_id with
    | some expert_response, some non_expert_response =>
      match expert_response.is_correct, non_expert_response.is_correct with
      | some ec, some nc =>
        (computeDifferences expert_responses non_expert_responses rest).map
          (fun ds => (question_id, boolToInt ec - boolToInt nc) :: ds)
      | _, _ => computeDifferences expert_responses non_expert_responses rest
    | _, _ => .error (.keyError "question_id")

/-- Insert into a descending-sorted list, after every element whose key is
greater than or equal (the placement a stable descending sort gives an
element that originally preceded the tail). -/
def insertDescBy {α : Type} (f : α → Int) (x : α) : List α → List α
  | [] => [x]
  | y :: ys => if f x < f y then y :: insertDescBy f x ys else x :: y :: ys

/-- Stable descending insertion sort by an `Int` key: extensionally the list
Python's stable `sorted(·, key=..., reverse=True)` produces. -/
def sortDescBy {α : Type} (f : α → Int) : List α → List α
  | [] => []
  | x :: xs => insertDescBy f x (sortDescBy f xs)

/-- The final loop of `select_subset_of_mmlu_questions`: for each selected
question id, copy `questions_db[question_id]` into the result table. -/
def buildSubset (questions_db : List (Int × MMLUMathQuestion)) :
    List Int → Except SelectorError (List (Int × MMLUMathQuestion))
  | [] => .ok []
  | question_id :: rest =>
    match dictLookup questions_db question_id with
    | some q => (buildSubset questions_db rest).map (fun acc => (question_id, q) :: acc)
    | none => .error (.keyError "question_id")

/-- `select_subset_of_mmlu_questions` from `functions.py`.  `questions_db` is
the question dict in insertion order; `zero_shot_responses_db` is the response
dict (UUID keys, insertion order).  The source's three asserts become the
three error branches; the rest mirrors the source statement for statement. -/
def select_subset_of_mmlu_questions
    (questions_db : List (Int × MMLUMathQuestion))
    (zero_shot_responses_db : List (Nat × ZeroShotFourOptionResponse))
    (desired_subset_size : Nat) :
    Except SelectorError (List (Int × MMLUMathQuestion)) :=
  let number_of_questions := questions_db.length
  if ¬ desired_subset_size ≤ number_of_questions then
    .error (.invalidArgument "Desired subset size is too large.")
  else
    let values := zero_shot_responses_db.map Prod.snd
    let expert_responses := dictOfPairs
      ((values.filter (fun r => r.model_id == strong_model_id)).map
        (fun r => (r.question_id, r)))
    if ¬ expert_responses.length = number_of_questions then
      .error (.invariantViolation "There should be one expert response for each question.")
    else
      let non_expert_responses := dictOfPairs
        ((values.filter (fun r => r.model_id == weak_model_id)).map
          (fun r => (r.question_id, r)))
      if ¬ non_expert_responses.length = number_of_questions then
        .error (.invariantViolation "There should be one non-expert response for each question.")
      else
        match computeDifferences expert_responses non_expert_responses
            (questions_db.map Prod.fst) with
        | .error e => .error e
        | .ok differences =>
          let sorted_differences := sortDescBy Prod.snd differences
          buildSubset questions_db
            ((sorted_differences.map Prod.fst).take desired_subset_size)

/-- The unique response of a given model for a given question, written from
the spec's words: with exactly one response per (model, question) pair, it is
the first (and only) match in the response table. -/
def response_for (model : String) (values : List ZeroShotFourOptionResponse)
    (qid : Int) : Option ZeroShotFourOptionResponse :=
  (values.filter (fun r => r.model_id == model)).find?
    (fun r => r.question_id == qid)

/-- Modelled from the spec's algorithm description: for each question (in
table insertion order) whose strong and weak correctness flags are both
resolved, pair it with the signed difference
`correct(strong) - correct(weak)`; skip the others. -/
def specDifferences (questions_db : List (Int × MMLUMathQuestion))
    (values : List ZeroShotFourOptionResponse) :
    List ((Int × MMLUMathQuestion) × Int) :=
  questions_db.filterMap (fun p =>
    match response_for strong_model_id values p.1,
        response_for weak_model_id values p.1 with
    | some e, some n =>
      match e.is_correct, n.is_correct with
      | some ec, some nc => some (p, boolToInt ec - boolToInt nc)
      | _, _ => none
    | _, _ => none)

/-- Modelled from the spec's words for the Subset Selector: sort the resolved
questions by difference descending (stable, ties keeping table insertion
order) and return the first `k`, preserving the original question entries. -/
def specSelectSubset (questions_db : List (Int × MMLUMathQuestion))
    (values : List ZeroShotFourOptionResponse) (k : Nat) :
    List (Int × MMLUMathQuestion) :=
  ((sortDescBy Prod.snd (specDifferences questions_db values)).map Prod.fst).take k

/-- "Exactly one response of `model` per question": the question ids of the
responses carrying `model` are a permutation of the table's question ids. -/
def one_response_per_question (model : String)
    (questions_db : List (Int × MMLUMathQuestion))
    (values : List ZeroShotFourOptionResponse) : Prop :=
  List.Perm ((values.filter (fun r => r.model_id == model)).map
    (fun r => r.question_id)) (questions_db.map Prod.fst)

/-- The number of questions whose strong and weak correctness flags are both
resolved (the resolved-question count `r` of the spec). -/
def resolvedCount (questions_db : List (Int × MMLUMathQuestion))
    (values : List ZeroShotFourOptionResponse) : Nat :=
  questions_db.countP (fun p =>
    match response_for strong_model_id values p.1,
        response_for weak_model_id values p.1 with
    | some e, some n =>
      match e.is_correct, n.is_correct with
      | some _, some _ => true
      | _, _ => false
    | _, _ => false)

/-- The number of distinct values in a list, in the sense of a Python dict's
key count (first occurrence keeps the slot). -/
def distinctCount (l : List Int) : Nat :=
  (l.foldl (fun acc x => if x ∈ acc then acc else acc ++ [x]) []).length

/-- `hasPair c l = true` iff `l` contains two adjacent occurrences of `c`. -/
def hasPair (c : Char) : List Char → Bool
  | a :: b :: rest => (a == c && b == c) || hasPair c (b :: rest)
  | _ => false

/-- `noRun3 l = true` iff `l` contains no run of three (or more) consecutive
whitespace characters, i.e. every whitespace run has length at most 2. -/
def noRun3 : List Char → Bool
  | a :: b :: c :: rest =>
    !(isPySpace a && isPySpace b && isPySpace c) && noRun3 (b :: c :: rest)
  | _ => true

/-- Three MMLU questions used in the concrete Subset Selector examples. -/
def mmlu_q1 : MMLUMathQuestion :=
  { id := 1, content := "q1", options := ["w", "x", "y", "z"], correct_option_index := 0 }

/-- Second concrete question. -/
def mmlu_q2 : MMLUMathQuestion :=
  { id := 2, content := "q2", options := ["w", "x", "y", "z"], correct_option_index := 1 }

/-- Third concrete question. -/
def mmlu_q3 : MMLUMathQuestion :=
  { id := 3, content := "q3", options := ["w", "x", "y", "z"], correct_option_index := 2 }

/-- The question table of the spec's three-question selector example. -/
def c2_questions_db : List (Int × MMLUMathQuestion) :=
  [(1, mmlu_q1), (2, mmlu_q2), (3, mmlu_q3)]

/-- The response table of the spec's three-question selector example:
strong/weak correctness pairs (1,0), (1,1), (0,1). -/
def c2_responses_db : List (Nat × ZeroShotFourOptionResponse) :=
  [ (10, { id := 10, question_id := 1, response := "A", model_id := "gpt-4-turbo-2024-04-09", is_correct := some true }),
    (11, { id := 11, question_id := 2, response := "B", model_id := "gpt-4-turbo-2024-04-09", is_correct := some true }),
    (12, { id := 12, question_id := 3, response := "B", model_id := "gpt-4-turbo-2024-04-09", is_correct := some false }),
    (13, { id := 13, question_id := 1, response := "B", model_id := "claude-3-haiku-20240307", is_correct := some false }),
    (14, { id := 14, question_id := 2, response := "B", model_id := "claude-3-haiku-20240307", is_correct := some true }),
    (15, { id := 15, question_id := 3, response := "C", model_id := "claude-3-haiku-20240307", is_correct := some true }) ]

/-- A question whose correct option index is 2 (label "C"), for claim C3. -/
def c3_question_c : MMLUMathQuestion :=
  { id := 7, content := "q", options := ["w", "x", "y", "z"], correct_option_index := 2 }

/-- The same question with correct option index 0 (label "A"), for claim C3. -/
def c3_question_a : MMLUMathQuestion :=
  { id := 7, content := "q", options := ["w", "x", "y", "z"], correct_option_index := 0 }

/-- A zero-shot response with raw text "The answer is C", for claim C3. -/
def c3_response : ZeroShotFourOptionResponse :=
  { id := 40, question_id := 7, response := "The answer is C", model_id := "gpt-4-turbo-2024-04-09" }

/-- A question for the two-option scoring examples. -/
def c4_question : MMLUMathQuestion :=
  { id := 5, content := "q", options := ["w", "x", "y", "z"], correct_option_index := 0 }

/-- An `incorrect_first` two-option response whose text contains both "A" and
"B" — the counterexample input for claim C4. -/
def c4_response_ab : BaseTwoOptionResponse :=
  { id := 50, question_id := 5, correct_option_index := 0, incorrect_option_index := 1,
    ordering := "incorrect_first", model_id := "claude-3-opus-20240229", response := "A B" }

/-- A `correct_first` two-option response whose text contains "A". -/
def c4_response_cf : BaseTwoOptionResponse :=
  { id := 51, question_id := 5, correct_option_index := 0, incorrect_option_index := 1,
    ordering := "correct_first", model_id := "claude-3-opus-20240229", response := "A" }

/-- A question for the classification scoring examples (correct option 0). -/
def c5_question : MMLUMathQuestion :=
  { id := 3, content := "q", options := ["w", "x", "y", "z"], correct_option_index := 0 }

/-- An argument arguing for the correct option of `c5_question`. -/
def c5_arg_correct : SelectedOptionArgumentResponse :=
  { id := 21, question_id := 3, selected_option_index := 0,
    model_id := "claude-3-opus-20240229", requested_response_length := "short",
    argument := "arg" }

/-- An argument arguing for an incorrect option of `c5_question`. -/
def c5_arg_wrong : SelectedOptionArgumentResponse :=
  { id := 22, question_id := 3, selected_option_index := 1,
    model_id := "claude-3-opus-20240229", requested_response_length := "short",
    argument := "arg" }

/-- A classification record with verdict "This is correct" for `c5_arg_correct`. -/
def c5_class_of_correct : ArgumentClassificationResponse :=
  { id := 61, argument_id := 21, model_id := "gpt-4-turbo-2024-04-09",
    classification := "This is correct", classification_explanation := "e" }

/-- A classification record with verdict "This is correct" for `c5_arg_wrong`. -/
def c5_class_of_wrong : ArgumentClassificationResponse :=
  { id := 62, argument_id := 22, model_id := "gpt-4-turbo-2024-04-09",
    classification := "This is correct", classification_explanation := "e" }

/-- A classification record whose verdict contains neither keyword. -/
def c5_class_ambiguous : ArgumentClassificationResponse :=
  { id := 63, argument_id := 21, model_id := "gpt-4-turbo-2024-04-09",
    classification := "maybe", classification_explanation := "e" }

/-- The question table of the C6 counterexample (two questions). -/
def c6_questions_db : List (Int × MMLUMathQuestion) :=
  [(1, mmlu_q1), (2, mmlu_q2)]

/-- The response table of the C6 counterexample: THREE strong-model responses
(two of them for question 1) and two weak-model responses, everything
resolved.  The raw strong response count (3) differs from the question count
(2), yet the selector's deduplicating dict comprehension sees 2 entries. -/
def c6_responses_db : List (Nat × ZeroShotFourOptionResponse) :=
  [ (30, { id := 30, question_id := 1, response := "A", model_id := "gpt-4-turbo-2024-04-09", is_correct := some false }),
    (31, { id := 31, question_id := 1, response := "A", model_id := "gpt-4-turbo-2024-04-09", is_correct := some true }),
    (32, { id := 32, question_id := 2, response := "B", model_id := "gpt-4-turbo-2024-04-09", is_correct := some true }),
    (33, { id := 33, question_id := 1, response := "B", model_id := "claude-3-haiku-20240307", is_correct := some true }),
    (34, { id := 34, question_id := 2, response := "B", model_id := "claude-3-haiku-20240307", is_correct := some true }) ]

/-- The question table of the C10 witness (two questions). -/
def c10_questions_db : List (Int × MMLUMathQuestion) :=
  [(1, mmlu_q1), (2, mmlu_q2)]

/-- The response table of the C10 witness: one strong and one weak response
per question, but question 2's weak correctness flag is unresolved, so only
one question survives the skip step. -/
def c10_responses_db : List (Nat × ZeroShotFourOptionResponse) :=
  [ (70, { id := 70, question_id := 1, response := "A", model_id := "gpt-4-turbo-2024-04-09", is_correct := some true }),
    (71, { id := 71, question_id := 2, response := "A", model_id := "gpt-4-turbo-2024-04-09", is_correct := some true }),
    (72, { id := 72, question_id := 1, response := "B", model_id := "claude-3-haiku-20240307", is_correct := some false }),
    (73, { id := 73, question_id := 2, response := "B", model_id := "claude-3-haiku-20240307", is_correct := none }) ]

/-- A classification record whose verdict contains "incorrect". -/
def c9_class_incorrect : ArgumentClassificationResponse :=
  { id := 64, argument_id := 21, model_id := "gpt-4-turbo-2024-04-09",
    classification := "This is incorrect", classification_explanation := "e" }

theorem containsList_of_startsWith (n l : List Char)
    (h : startsWithList n l = true) : containsList n l = true := by
  cases l with
  | nil => simpa [containsList] using h
  | cons x t => simp [containsList, h]

theorem containsList_of_cons (a : Char) (n : List Char) :
    ∀ h : List Char, containsList (a :: n) h = true → containsList n h = true := by
  intro h
  induction h with
  | nil => intro hh; simp [containsList, startsWithList] at hh
  | cons x t ih =>
    intro hh
    simp only [containsList, Bool.or_eq_true] at hh ⊢
    rcases hh with h1 | h2
    · simp only [startsWithList, Bool.and_eq_true] at h1
      exact Or.inr (containsList_of_startsWith n t h1.2)
    · exact Or.inr (ih h2)

theorem containsStr_correct_of_incorrect (s : String)
    (h : containsStr s "incorrect" = true) : containsStr s "correct" = true :=
  containsList_of_cons 'n' "correct".toList s.toList
    (containsList_of_cons 'i' "ncorrect".toList s.toList h)

theorem classification_get_eq (r : ArgumentClassificationResponse)
    (q : MMLUMathQuestion) (a : SelectedOptionArgumentResponse)
    (hra : r.argument_id = a.id) (haq : a.question_id = q.id) :
    r.get_is_correct q a =
      (if containsStr (strLower r.classification) "incorrect" then
        .ok (!(a.selected_option_index == q.correct_option_index))
      else if containsStr (strLower r.classification) "correct" then
        .ok (a.selected_option_index == q.correct_option_index)
      else
        .error (.valueError
          ("Could not determine correctness from classification response: "
            ++ r.classification))) := by
  simp [ArgumentClassificationResponse.get_is_correct,
    SelectedOptionArgumentResponse.is_correct_option, hra, haq]

/-- Claim C3: a Zero-Shot Four-Option Response scores correct if and only if
the letter label of the question's correct option index occurs as a substring
of the raw response text; in particular "The answer is C" scores `true`
against `correct_option_index = 2` and `false` against index 0. -/
theorem C3_zero_shot_four_option_scoring
    (r : ZeroShotFourOptionResponse) (q : MMLUMathQuestion) (lbl : String)
    (hid : r.question_id = q.id)
    (hlbl : index_to_label q.correct_option_index = some lbl) :
    (r.get_is_correct q = .ok (containsStr r.response lbl)) ∧
    (r.get_is_correct q = .ok true ↔ containsStr r.response lbl = true) ∧
    c3_response.get_is_correct c3_question_c = .ok true ∧
    c3_response.get_is_correct c3_question_a = .ok false := by
  have h1 : r.get_is_correct q = .ok (containsStr r.response lbl) := by
    simp [ZeroShotFourOptionResponse.get_is_correct, hid, hlbl]
  refine ⟨h1, ?_, rfl, rfl⟩
  rw [h1]
  simp

/-- Witness for C3 at the concrete example records. -/
theorem C3_witness :
    c3_response.get_is_correct c3_question_c =
      .ok (containsStr c3_response.response "C") :=
  (C3_zero_shot_four_option_scoring c3_response c3_question_c "C" rfl rfl).1

/-- Claim C4, amended: the expected label is "A" for `correct_first` and "B"
for `incorrect_first` orderings and scoring is a substring test on that
label; a `correct_first` response containing "A" scores correct, and an
`incorrect_first` response containing "A" scores incorrect provided it does
not also contain "B". -/
theorem C4_two_option_scoring_amended
    (r : BaseTwoOptionResponse) (q : MMLUMathQuestion) (hid : r.question_id = q.id) :
    (r.get_is_correct q =
      .ok (containsStr r.response (if r.ordering == "correct_first" then "A" else "B"))) ∧
    (r.ordering = "correct_first" → containsStr r.response "A" = true →
      r.get_is_correct q = .ok true) ∧
    (r.ordering = "incorrect_first" → containsStr r.response "A" = true →
      containsStr r.response "B" = false → r.get_is_correct q = .ok false) := by
  have h1 : r.get_is_correct q =
      .ok (containsStr r.response (if r.ordering == "correct_first" then "A" else "B")) := by
    simp [BaseTwoOptionResponse.get_is_correct, hid]
  refine ⟨h1, ?_, ?_⟩
  · intro ho hA
    rw [h1, ho]
    simp [hA]
  · intro ho hA hB
    rw [h1, ho]
    simp [hB]

/-- Claim C4 counterexample: an `incorrect_first` response whose text "A B"
contains "A" scores CORRECT (because it also contains the expected label
"B"), refuting "a response text containing 'A' scores incorrect". -/
theorem C4_counterexample :
    containsStr c4_response_ab.response "A" = true ∧
    c4_response_ab.ordering = "incorrect_first" ∧
    c4_response_ab.get_is_correct c4_question = .ok true :=
  ⟨by decide, rfl, rfl⟩

/-- Witness for C4 at the concrete `correct_first` record. -/
theorem C4_witness :
    c4_response_cf.get_is_correct c4_question = .ok true :=
  (C4_two_option_scoring_amended c4_response_cf c4_question rfl).2.1 rfl (by decide)

/-- Claim C5: classification scoring is a case-insensitive substring match on
the verdict; a keyword verdict scores `true` exactly when it agrees with
whether the argument is for the correct option ("This is correct" gives
`true` against an argument for the correct option and `false` otherwise), and
a verdict with neither keyword raises a `ValueError` that `set_is_correct`
catches, leaving the record (and its unresolved `is_correct`) unchanged. -/
theorem C5_classification_scoring
    (r : ArgumentClassificationResponse) (q : MMLUMathQuestion)
    (a : SelectedOptionArgumentResponse)
    (hra : r.argument_id = a.id) (haq : a.question_id = q.id) :
    (containsStr (strLower r.classification) "incorrect" = true →
      (r.get_is_correct q a = .ok true ↔
        ¬ a.selected_option_index = q.correct_option_index)) ∧
    (containsStr (strLower r.classification) "correct" = true →
      containsStr (strLower r.classification) "incorrect" = false →
      (r.get_is_correct q a = .ok true ↔
        a.selected_option_index = q.correct_option_index)) ∧
    (containsStr (strLower r.classification) "correct" = false →
      containsStr (strLower r.classification) "incorrect" = false →
      (r.get_is_correct q a = .error (.valueError
        ("Could not determine correctness from classification response: "
          ++ r.classification)) ∧
       r.set_is_correct q a = r)) ∧
    c5_class_of_correct.get_is_correct c5_question c5_arg_correct = .ok true ∧
    c5_class_of_wrong.get_is_correct c5_question c5_arg_wrong = .ok false ∧
    c5_class_ambiguous.set_is_correct c5_question c5_arg_correct = c5_class_ambiguous ∧
    c5_class_ambiguous.is_correct = none := by
  have hbase := classification_get_eq r q a hra haq
  refine ⟨?_, ?_, ?_, rfl, rfl, rfl, rfl⟩
  · intro hin
    rw [hbase]
    simp [hin]
  · intro hc hin
    rw [hbase]
    simp [hc, hin]
  · intro hc hin
    have herr : r.get_is_correct q a = .error (.valueError
        ("Could not determine correctness from classification response: "
          ++ r.classification)) := by
      rw [hbase]
      simp [hc, hin]
    refine ⟨herr, ?_⟩
    simp [ArgumentClassificationResponse.set_is_correct, herr]

/-- Witness for C5 at the concrete example records. -/
theorem C5_witness :
    c5_class_of_correct.get_is_correct c5_question c5_arg_correct = .ok true ↔
      c5_arg_correct.selected_option_index = c5_question.correct_option_index :=
  (C5_classification_scoring c5_class_of_correct c5_question c5_arg_correct
    rfl rfl).2.1 (by decide) (by decide)

/-- Claim C7: any model id outside the closed four-element set makes
`llm_api_call` raise `ValueError` during dispatch, before any vendor request
is produced (the result carries no `VendorRequest`). -/
theorem C7_unsupported_model_id (model_id : String) (messages : List LLMMessage)
    (h : model_id ∉ (["gpt-4-turbo-2024-04-09", "claude-3-haiku-20240307",
      "claude-3-sonnet-20240229", "claude-3-opus-20240229"] : List String)) :
    llm_api_call_request model_id messages =
      .error (.valueError ("Unsupported `model_id`: " ++ model_id)) := by
  simp only [List.mem_cons, List.not_mem_nil, or_false, not_or] at h
  obtain ⟨h1, h2, h3, h4⟩ := h
  have e1 : (model_id == "gpt-4-turbo-2024-04-09") = false := beq_eq_false_iff_ne.mpr h1
  have e2 : (model_id == "claude-3-haiku-20240307") = false := beq_eq_false_iff_ne.mpr h2
  have e3 : (model_id == "claude-3-sonnet-20240229") = false := beq_eq_false_iff_ne.mpr h3
  have e4 : (model_id == "claude-3-opus-20240229") = false := beq_eq_false_iff_ne.mpr h4
  simp [llm_api_call_request, e1, e2, e3, e4]

/-- Witness for C7 at the unsupported id "gpt-5". -/
theorem C7_witness :
    llm_api_call_request "gpt-5" [] =
      .error (.valueError ("Unsupported `model_id`: " ++ "gpt-5")) :=
  C7_unsupported_model_id "gpt-5" [] (by decide)

/-- Claim C8, amended: for the Anthropic family the gateway sleeps
`1500 - elapsed` ms exactly when `elapsed < 1000` ms (total 1500 ms) and
otherwise does not sleep (total `elapsed`); each call therefore occupies at
least 1000 ms, bounding steady-state throughput at 60 requests/minute (the
~40/min figure holds only when every response arrives in under 1000 ms).
The OpenAI model never sleeps. -/
theorem C8_rate_limit_amended (model_id : String) (elapsed : ℚ) :
    (model_id ∈ anthropic_model_ids → elapsed < 1000 →
      gateway_sleep_ms model_id elapsed = 1500 - elapsed ∧
      call_total_ms model_id elapsed = 1500) ∧
    (model_id ∈ anthropic_model_ids → 1000 ≤ elapsed →
      gateway_sleep_ms model_id elapsed = 0 ∧
      call_total_ms model_id elapsed = elapsed) ∧
    (model_id ∈ anthropic_model_ids → 0 ≤ elapsed →
      1000 ≤ call_total_ms model_id elapsed) ∧
    gateway_sleep_ms "gpt-4-turbo-2024-04-09" elapsed = 0 := by
  have hgpt : "gpt-4-turbo-2024-04-09" ∉ anthropic_model_ids := by decide
  refine ⟨?_, ?_, ?_, by simp [gateway_sleep_ms, hgpt]⟩
  · intro hm hlt
    constructor
    · simp [gateway_sleep_ms, hm, hlt]
    · simp only [call_total_ms, gateway_sleep_ms, if_pos hm, if_pos hlt]
      ring
  · intro hm hge
    have hnl : ¬ elapsed < 1000 := not_lt.mpr hge
    exact ⟨by simp [gateway_sleep_ms, hm, hnl],
      by simp [call_total_ms, gateway_sleep_ms, hm, hnl]⟩
  · intro hm h0
    by_cases hlt : elapsed < 1000
    · have h15 : call_total_ms model_id elapsed = 1500 := by
        simp only [call_total_ms, gateway_sleep_ms, if_pos hm, if_pos hlt]
        ring
      rw [h15]
      norm_num
    · have hel : call_total_ms model_id elapsed = elapsed := by
        simp [call_total_ms, gateway_sleep_ms, hm, hlt]
      rw [hel]
      exact not_lt.mp hlt

/-- Claim C8 counterexample: a call whose vendor round-trip takes exactly
1000 ms triggers no sleep and occupies 1000 ms total — a steady state of 60
requests/minute, exceeding the claimed ~40/min bound. -/
theorem C8_counterexample :
    gateway_sleep_ms "claude-3-haiku-20240307" 1000 = 0 ∧
    call_total_ms "claude-3-haiku-20240307" 1000 = 1000 ∧
    call_total_ms "claude-3-haiku-20240307" 1000 < 1500 := by
  have hm : "claude-3-haiku-20240307" ∈ anthropic_model_ids := by decide
  have hnl : ¬ (1000 : ℚ) < 1000 := by norm_num
  have hs : gateway_sleep_ms "claude-3-haiku-20240307" 1000 = 0 := by
    simp [gateway_sleep_ms, hm, hnl]
  have ht : call_total_ms "claude-3-haiku-20240307" 1000 = 1000 := by
    simp [call_total_ms, hs]
  exact ⟨hs, ht, by rw [ht]; norm_num⟩

/-- Witness for C8 at a 500 ms Anthropic call. -/
theorem C8_witness :
    gateway_sleep_ms "claude-3-haiku-20240307" 500 = 1500 - 500 ∧
    call_total_ms "claude-3-haiku-20240307" 500 = 1500 ∧
    gateway_sleep_ms "gpt-4-turbo-2024-04-09" 500 = 0 := by
  have h := (C8_rate_limit_amended "claude-3-haiku-20240307" 500).1
    (by decide) (by norm_num)
  exact ⟨h.1, h.2, (C8_rate_limit_amended "gpt-4-turbo-2024-04-09" 500).2.2.2⟩

/-- Claim C9: "correct" is a substring of "incorrect", the "incorrect" branch
takes precedence, the "correct" branch applies only to verdicts containing
"correct" but not "incorrect", and the `ValueError` branch fires exactly when
the lowercase verdict contains neither substring. -/
theorem C9_incorrect_keyword_precedence (s : String)
    (r : ArgumentClassificationResponse) (q : MMLUMathQuestion)
    (a : SelectedOptionArgumentResponse)
    (hra : r.argument_id = a.id) (haq : a.question_id = q.id) :
    (containsStr s "incorrect" = true → containsStr s "correct" = true) ∧
    (containsStr (strLower r.classification) "incorrect" = true →
      r.get_is_correct q a =
        .ok (!(a.selected_option_index == q.correct_option_index))) ∧
    (containsStr (strLower r.classification) "correct" = true →
      containsStr (strLower r.classification) "incorrect" = false →
      r.get_is_correct q a =
        .ok (a.selected_option_index == q.correct_option_index)) ∧
    ((∃ msg, r.get_is_correct q a = .error (.valueError msg)) ↔
      containsStr (strLower r.classification) "correct" = false ∧
      containsStr (strLower r.classification) "incorrect" = false) := by
  have hbase := classification_get_eq r q a hra haq
  refine ⟨containsStr_correct_of_incorrect s, ?_, ?_, ?_⟩
  · intro hin
    rw [hbase]
    simp [hin]
  · intro hc hin
    rw [hbase]
    simp [hc, hin]
  · constructor
    · rintro ⟨msg, hmsg⟩
      rw [hbase] at hmsg
      cases hin : containsStr (strLower r.classification) "incorrect" with
      | true => simp [hin] at hmsg
      | false =>
        cases hc : containsStr (strLower r.classification) "correct" with
        | true => simp [hin, hc] at hmsg
        | false => exact ⟨rfl, rfl⟩
    · rintro ⟨hc, hin⟩
      rw [hbase]
      simp [hc, hin]

/-- Witness for C9 at a verdict containing "incorrect". -/
theorem C9_witness :
    c9_class_incorrect.get_is_correct c5_question c5_arg_correct =
      .ok (!(c5_arg_correct.selected_option_index == c5_question.correct_option_index)) ∧
    containsStr "This is incorrect" "correct" = true := by
  have h := C9_incorrect_keyword_precedence "This is incorrect"
    c9_class_incorrect c5_question c5_arg_correct rfl rfl
  exact ⟨h.2.1 (by decide), h.1 (by decide)⟩

theorem dictUpsert_of_not_mem {β : Type} (m : List (Int × β)) (k : Int) (v : β)
    (h : k ∉ m.map Prod.fst) : dictUpsert m k v = m ++ [(k, v)] := by
  have hany : m.any (fun p => p.1 == k) = false := by
    cases hval : m.any (fun p => p.1 == k) with
    | false => rfl
    | true =>
      rw [List.any_eq_true] at hval
      obtain ⟨p, hp, hbeq⟩ := hval
      exact absurd (List.mem_map.mpr ⟨p, hp, by simpa using hbeq⟩) h
  simp [dictUpsert, hany]

theorem foldl_dictUpsert_of_nodup {β : Type} :
    ∀ (ps m : List (Int × β)), (m.map Prod.fst ++ ps.map Prod.fst).Nodup →
      ps.foldl (fun acc p => dictUpsert acc p.1 p.2) m = m ++ ps
  | [], m, _ => by simp
  | p :: rest, m, h => by
    have hnotm : p.1 ∉ m.map Prod.fst := by
      intro hmem
      exact List.disjoint_of_nodup_append h hmem (by simp)
    have h2 : ((m ++ [(p.1, p.2)]).map Prod.fst ++ rest.map Prod.fst).Nodup := by
      simpa [List.append_assoc] using h
    rw [List.foldl_cons, dictUpsert_of_not_mem m p.1 p.2 hnotm,
      foldl_dictUpsert_of_nodup rest (m ++ [(p.1, p.2)]) h2]
    simp [List.append_assoc]

theorem dictOfPairs_of_nodup {β : Type} (ps : List (Int × β))
    (h : (ps.map Prod.fst).Nodup) : dictOfPairs ps = ps := by
  have h0 := foldl_dictUpsert_of_nodup ps [] (by simpa using h)
  simpa [dictOfPairs] using h0

theorem find?_map_pair_eq (l : List ZeroShotFourOptionResponse) (k : Int) :
    (l.map (fun r => (r.question_id, r))).find? (fun p => p.1 == k) =
      (l.find? (fun r => r.question_id == k)).map (fun r => (r.question_id, r)) := by
  induction l with
  | nil => rfl
  | cons r rest ih =>
    cases hb : (r.question_id == k) with
    | true => simp [List.find?, hb]
    | false => simp [List.find?, hb, ih]

theorem dictLookup_pairs (l : List ZeroShotFourOptionResponse) (k : Int) :
    dictLookup (l.map (fun r => (r.question_id, r))) k =
      l.find? (fun r => r.question_id == k) := by
  rw [dictLookup, find?_map_pair_eq]
  cases l.find? (fun r => r.question_id == k) <;> rfl

theorem response_for_isSome (model : String) (values : List ZeroShotFourOptionResponse)
    (qid : Int)
    (h : qid ∈ (values.filter (fun r => r.model_id == model)).map (fun r => r.question_id)) :
    ∃ r, response_for model values qid = some r := by
  rw [List.mem_map] at h
  obtain ⟨r, hr, hq⟩ := h
  have hsome : ((values.filter (fun r => r.model_id == model)).find?
      (fun r => r.question_id == qid)).isSome := by
    rw [List.find?_isSome]
    exact ⟨r, hr, by simpa using hq⟩
  exact Option.isSome_iff_exists.mp hsome

theorem computeDifferences_spec
    (E N : List (Int × ZeroShotFourOptionResponse))
    (values : List ZeroShotFourOptionResponse)
    (hE : ∀ q, dictLookup E q = response_for strong_model_id values q)
    (hN : ∀ q, dictLookup N q = response_for weak_model_id values q) :
    ∀ questions : List (Int × MMLUMathQuestion),
      (∀ p ∈ questions, (response_for strong_model_id values p.1).isSome) →
      (∀ p ∈ questions, (response_for weak_model_id values p.1).isSome) →
      computeDifferences E N (questions.map Prod.fst) =
        .ok ((specDifferences questions values).map (fun pd => (pd.1.1, pd.2)))
  | [], _, _ => rfl
  | p :: rest, hS, hW => by
    obtain ⟨e, he⟩ := Option.isSome_iff_exists.mp (hS p (by simp))
    obtain ⟨n, hn⟩ := Option.isSome_iff_exists.mp (hW p (by simp))
    have ihyp := computeDifferences_spec E N values hE hN rest
      (fun q hq => hS q (by simp [hq])) (fun q hq => hW q (by simp [hq]))
    cases hec : e.is_correct with
    | some ec =>
      cases hnc : n.is_correct with
      | some nc =>
        simp only [computeDifferences, List.map_cons, hE, hN, he, hn, hec, hnc, ihyp,
          specDifferences, List.filterMap_cons]
        rfl
      | none =>
        simp [computeDifferences, hE, hN, he, hn, hec, hnc, ihyp,
          specDifferences, List.filterMap_cons]
    | none =>
      cases hnc : n.is_correct with
      | some nc =>
        simp [computeDifferences, hE, hN, he, hn, hec, hnc, ihyp,
          specDifferences, List.filterMap_cons]
      | none =>
        simp [computeDifferences, hE, hN, he, hn, hec, hnc, ihyp,
          specDifferences, List.filterMap_cons]

theorem insertDescBy_map {α β : Type} (f : β → Int) (g : α → β) (f2 : α → Int)
    (hkey : ∀ x, f (g x) = f2 x) (x : α) :
    ∀ l : List α, insertDescBy f (g x) (l.map g) = (insertDescBy f2 x l).map g
  | [] => rfl
  | y :: ys => by
    simp only [List.map_cons, insertDescBy, hkey]
    by_cases hlt : f2 x < f2 y
    · simp [hlt, insertDescBy_map f g f2 hkey x ys]
    · simp [hlt]

theorem sortDescBy_map {α β : Type} (f : β → Int) (g : α → β) (f2 : α → Int)
    (hkey : ∀ x, f (g x) = f2 x) :
    ∀ l : List α, sortDescBy f (l.map g) = (sortDescBy f2 l).map g
  | [] => rfl
  | x :: xs => by
    simp only [List.map_cons, sortDescBy]
    rw [sortDescBy_map f g f2 hkey xs, insertDescBy_map f g f2 hkey]

theorem insertDescBy_perm {α : Type} (f : α → Int) (x : α) :
    ∀ l : List α, List.Perm (insertDescBy f x l) (x :: l)
  | [] => List.Perm.refl _
  | y :: ys => by
    simp only [insertDescBy]
    by_cases hlt : f x < f y
    · rw [if_pos hlt]
      exact ((insertDescBy_perm f x ys).cons y).trans (List.Perm.swap x y ys)
    · rw [if_neg hlt]

theorem sortDescBy_perm {α : Type} (f : α → Int) :
    ∀ l : List α, List.Perm (sortDescBy f l) l
  | [] => List.Perm.refl _
  | x :: xs =>
    (insertDescBy_perm f x (sortDescBy f xs)).trans ((sortDescBy_perm f xs).cons x)

theorem find?_eq_of_nodup_mem {β : Type} :
    ∀ (l : List (Int × β)) (p : Int × β), (l.map Prod.fst).Nodup → p ∈ l →
      l.find? (fun q => q.1 == p.1) = some p
  | [], p, _, hm => absurd hm (List.not_mem_nil p)
  | q :: rest, p, hnd, hm => by
    rw [List.map_cons, List.nodup_cons] at hnd
    cases hb : (q.1 == p.1) with
    | true =>
      have hq : q.1 = p.1 := by simpa using hb
      rcases List.mem_cons.mp hm with rfl | hrest
      · exact List.find?_cons_of_pos _ hb
      · exact absurd (hq ▸ List.mem_map.mpr ⟨p, hrest, rfl⟩) hnd.1
    | false =>
      rcases List.mem_cons.mp hm with rfl | hrest
      · simp at hb
      · rw [List.find?_cons_of_neg _ (by simp [hb])]
        exact find?_eq_of_nodup_mem rest p hnd.2 hrest

theorem buildSubset_spec (qdb : List (Int × MMLUMathQuestion)) :
    ∀ L : List (Int × MMLUMathQuestion),
      (∀ p ∈ L, dictLookup qdb p.1 = some p.2) →
      buildSubset qdb (L.map Prod.fst) = .ok L
  | [], _ => rfl
  | p :: rest, h => by
    have hp := h p (by simp)
    simp only [List.map_cons, buildSubset, hp]
    rw [buildSubset_spec qdb rest (fun q hq => h q (by simp [hq]))]
    rfl

theorem specDifferences_mem_fst (qdb : List (Int × MMLUMathQuestion))
    (values : List ZeroShotFourOptionResponse)
    (pd : (Int × MMLUMathQuestion) × Int)
    (h : pd ∈ specDifferences qdb values) : pd.1 ∈ qdb := by
  simp only [specDifferences, List.mem_filterMap] at h
  obtain ⟨q, hq, hf⟩ := h
  cases hS : response_for strong_model_id values q.1 with
  | none => simp [hS] at hf
  | some e =>
    cases hW : response_for weak_model_id values q.1 with
    | none => simp [hS, hW] at hf
    | some n =>
      cases hec : e.is_correct with
      | none => simp [hS, hW, hec] at hf
      | some ec =>
        cases hnc : n.is_correct with
        | none => simp [hS, hW, hec, hnc] at hf
        | some nc =>
          simp only [hS, hW, hec, hnc, Option.some.injEq] at hf
          rw [← hf]
          exact hq

theorem model_dict_facts (model : String)
    (questions_db : List (Int × MMLUMathQuestion))
    (values : List ZeroShotFourOptionResponse)
    (hnd : (questions_db.map Prod.fst).Nodup)
    (hperm : one_response_per_question model questions_db values) :
    dictOfPairs ((values.filter (fun r => r.model_id == model)).map
        (fun r => (r.question_id, r))) =
      (values.filter (fun r => r.model_id == model)).map (fun r => (r.question_id, r)) ∧
    (dictOfPairs ((values.filter (fun r => r.model_id == model)).map
        (fun r => (r.question_id, r)))).length = questions_db.length ∧
    (∀ q, dictLookup (dictOfPairs ((values.filter (fun r => r.model_id == model)).map
        (fun r => (r.question_id, r)))) q = response_for model values q) ∧
    (∀ p ∈ questions_db, (response_for model values p.1).isSome) := by
  have hpermq : List.Perm
      ((values.filter (fun r => r.model_id == model)).map (fun r => r.question_id))
      (questions_db.map Prod.fst) := hperm
  have hkeys : (((values.filter (fun r => r.model_id == model)).map
      (fun r => (r.question_id, r))).map Prod.fst) =
      (values.filter (fun r => r.model_id == model)).map (fun r => r.question_id) := by
    simp only [List.map_map]
    rfl
  have hndk : ((((values.filter (fun r => r.model_id == model)).map
      (fun r => (r.question_id, r))).map Prod.fst)).Nodup := by
    rw [hkeys]
    exact hpermq.nodup_iff.mpr hnd
  have hdict := dictOfPairs_of_nodup _ hndk
  refine ⟨hdict, ?_, ?_, ?_⟩
  · rw [hdict]
    simpa using hpermq.length_eq
  · intro q
    rw [hdict, dictLookup_pairs]
    rfl
  · intro p hp
    have h1 : p.1 ∈ questions_db.map Prod.fst := List.mem_map.mpr ⟨p, hp, rfl⟩
    have h2 := hpermq.mem_iff.mpr h1
    obtain ⟨r, hr⟩ := response_for_isSome model values p.1 h2
    simp [hr]

theorem select_subset_refines
    (questions_db : List (Int × MMLUMathQuestion))
    (responses_db : List (Nat × ZeroShotFourOptionResponse))
    (k : Nat)
    (hnd : (questions_db.map Prod.fst).Nodup)
    (hk : k ≤ questions_db.length)
    (hs : one_response_per_question strong_model_id questions_db (responses_db.map Prod.snd))
    (hw : one_response_per_question weak_model_id questions_db (responses_db.map Prod.snd)) :
    select_subset_of_mmlu_questions questions_db responses_db k =
      .ok (specSelectSubset questions_db (responses_db.map Prod.snd) k) := by
  obtain ⟨hdS, hlenS, hlookS, hsomeS⟩ :=
    model_dict_facts strong_model_id questions_db (responses_db.map Prod.snd) hnd hs
  obtain ⟨hdW, hlenW, hlookW, hsomeW⟩ :=
    model_dict_facts weak_model_id questions_db (responses_db.map Prod.snd) hnd hw
  have hdiff := computeDifferences_spec _ _ (responses_db.map Prod.snd)
    hlookS hlookW questions_db hsomeS hsomeW
  have hmem : ∀ p ∈ (((sortDescBy Prod.snd
      (specDifferences questions_db (responses_db.map Prod.snd))).map Prod.fst).take k),
      dictLookup questions_db p.1 = some p.2 := by
    intro p hp
    have hp2 : p ∈ (sortDescBy Prod.snd
        (specDifferences questions_db (responses_db.map Prod.snd))).map Prod.fst :=
      (List.take_sublist k _).subset hp
    obtain ⟨pd, hpd, hfst⟩ := List.mem_map.mp hp2
    have hpd2 : pd ∈ specDifferences questions_db (responses_db.map Prod.snd) :=
      (sortDescBy_perm Prod.snd _).subset hpd
    have hq : pd.1 ∈ questions_db := specDifferences_mem_fst _ _ _ hpd2
    rw [← hfst, dictLookup, find?_eq_of_nodup_mem questions_db pd.1 hnd hq]
    rfl
  have harg : ((((sortDescBy Prod.snd
      (specDifferences questions_db (responses_db.map Prod.snd))).map
        (fun pd => (pd.1.1, pd.2))).map Prod.fst).take k) =
      (specSelectSubset questions_db (responses_db.map Prod.snd) k).map Prod.fst := by
    simp only [specSelectSubset, List.map_take, List.map_map]
    rfl
  simp only [select_subset_of_mmlu_questions]
  rw [if_neg (not_not_intro hk), if_neg (not_not_intro hlenS), if_neg (not_not_intro hlenW)]
  simp only [hdiff]
  have hsort := sortDescBy_map Prod.snd
    (fun pd : (Int × MMLUMathQuestion) × Int => (pd.1.1, pd.2)) Prod.snd
    (fun pd => rfl) (specDifferences questions_db (responses_db.map Prod.snd))
  rw [hsort, harg]
  exact buildSubset_spec questions_db
    (specSelectSubset questions_db (responses_db.map Prod.snd) k) hmem

theorem specDifferences_snd_range (qdb : List (Int × MMLUMathQuestion))
    (values : List ZeroShotFourOptionResponse) (d : Int)
    (hd : d ∈ (specDifferences qdb values).map Prod.snd) :
    d = -1 ∨ d = 0 ∨ d = 1 := by
  simp only [List.mem_map] at hd
  obtain ⟨pd, hpd, hsnd⟩ := hd
  simp only [specDifferences, List.mem_filterMap] at hpd
  obtain ⟨q, hq, hf⟩ := hpd
  cases hS : response_for strong_model_id values q.1 with
  | none => simp [hS] at hf
  | some e =>
    cases hW : response_for weak_model_id values q.1 with
    | none => simp [hS, hW] at hf
    | some n =>
      cases hec : e.is_correct with
      | none => simp [hS, hW, hec] at hf
      | some ec =>
        cases hnc : n.is_correct with
        | none => simp [hS, hW, hec, hnc] at hf
        | some nc =>
          simp only [hS, hW, hec, hnc, Option.some.injEq] at hf
          have hpd2 : pd = (q, boolToInt ec - boolToInt nc) := hf.symm
          subst hpd2
          have hd2 : d = boolToInt ec - boolToInt nc := hsnd.symm
          subst hd2
          cases ec <;> cases nc <;> decide

theorem sortDescBy_length {α : Type} (f : α → Int) (l : List α) :
    (sortDescBy f l).length = l.length :=
  (sortDescBy_perm f l).length_eq

theorem length_specDifferences (qdb : List (Int × MMLUMathQuestion))
    (values : List ZeroShotFourOptionResponse) :
    (specDifferences qdb values).length = resolvedCount qdb values := by
  induction qdb with
  | nil => rfl
  | cons p rest ih =>
    simp only [specDifferences, List.filterMap_cons, resolvedCount, List.countP_cons] at ih ⊢
    cases hS : response_for strong_model_id values p.1 with
    | none => simp [hS, ih]
    | some e =>
      cases hW : response_for weak_model_id values p.1 with
      | none => simp [hS, hW, ih]
      | some n =>
        cases hec : e.is_correct with
        | none => simp [hS, hW, hec, ih]
        | some ec =>
          cases hnc : n.is_correct with
          | none => simp [hS, hW, hec, hnc, ih]
          | some nc => simp [hS, hW, hec, hnc, ih]

/-- Claim C2: under the documented preconditions (distinct question ids,
`k` at most the question count, exactly one strong and one weak response per
question), the selector equals the spec-side description — signed differences
for questions with both flags resolved, unresolved questions skipped, stable
descending sort with table-order tiebreak, first `k` returned with the
original question entries — each difference lies in {-1, 0, 1}, and on the
spec's concrete three-question example with pairs (1,0),(1,1),(0,1) and k = 1
it returns exactly the first question. -/
theorem C2_subset_selector_refines
    (questions_db : List (Int × MMLUMathQuestion))
    (responses_db : List (Nat × ZeroShotFourOptionResponse))
    (k : Nat)
    (hnd : (questions_db.map Prod.fst).Nodup)
    (hk : k ≤ questions_db.length)
    (hs : one_response_per_question strong_model_id questions_db (responses_db.map Prod.snd))
    (hw : one_response_per_question weak_model_id questions_db (responses_db.map Prod.snd)) :
    select_subset_of_mmlu_questions questions_db responses_db k =
      .ok (specSelectSubset questions_db (responses_db.map Prod.snd) k) ∧
    (∀ d ∈ (specDifferences questions_db (responses_db.map Prod.snd)).map Prod.snd,
      d = -1 ∨ d = 0 ∨ d = 1) ∧
    select_subset_of_mmlu_questions c2_questions_db c2_responses_db 1 = .ok [(1, mmlu_q1)] :=
  ⟨select_subset_refines questions_db responses_db k hnd hk hs hw,
   fun d hd => specDifferences_snd_range questions_db (responses_db.map Prod.snd) d hd,
   by rfl⟩

/-- Witness for C2 at the spec's concrete three-question example. -/
theorem C2_witness :
    select_subset_of_mmlu_questions c2_questions_db c2_responses_db 1 =
      .ok (specSelectSubset c2_questions_db (c2_responses_db.map Prod.snd) 1) :=
  (C2_subset_selector_refines c2_questions_db c2_responses_db 1 (by decide) (by decide)
    (by unfold one_response_per_question; decide)
    (by unfold one_response_per_question; decide)).1

/-- Claim C10: with the preconditions satisfied, the selector still returns
`min k r` entries, where `r` is the number of questions whose strong and weak
correctness flags are both resolved — fewer than `k` when some flags are
unresolved. -/
theorem C10_returns_min_k_resolved
    (questions_db : List (Int × MMLUMathQuestion))
    (responses_db : List (Nat × ZeroShotFourOptionResponse))
    (k : Nat)
    (hnd : (questions_db.map Prod.fst).Nodup)
    (hk : k ≤ questions_db.length)
    (hs : one_response_per_question strong_model_id questions_db (responses_db.map Prod.snd))
    (hw : one_response_per_question weak_model_id questions_db (responses_db.map Prod.snd)) :
    ∃ res, select_subset_of_mmlu_questions questions_db responses_db k = .ok res ∧
      res.length = min k (resolvedCount questions_db (responses_db.map Prod.snd)) := by
  refine ⟨specSelectSubset questions_db (responses_db.map Prod.snd) k,
    select_subset_refines questions_db responses_db k hnd hk hs hw, ?_⟩
  simp only [specSelectSubset, List.length_take, List.length_map]
  rw [sortDescBy_length, length_specDifferences]

/-- Witness for C10: two questions, k = 2, one unresolved weak flag — the
result has min 2 1 = 1 entry. -/
theorem C10_witness :
    ∃ res, select_subset_of_mmlu_questions c10_questions_db c10_responses_db 2 = .ok res ∧
      res.length = min 2 (resolvedCount c10_questions_db (c10_responses_db.map Prod.snd)) :=
  C10_returns_min_k_resolved c10_questions_db c10_responses_db 2 (by decide) (by decide)
    (by unfold one_response_per_question; decide)
    (by unfold one_response_per_question; decide)

theorem dictUpsert_keys {β : Type} (m : List (Int × β)) (k : Int) (v : β) :
    (dictUpsert m k v).map Prod.fst =
      if k ∈ m.map Prod.fst then m.map Prod.fst else m.map Prod.fst ++ [k] := by
  by_cases hmem : k ∈ m.map Prod.fst
  · rw [if_pos hmem]
    have hany : m.any (fun p => p.1 == k) = true := by
      rw [List.any_eq_true]
      obtain ⟨p, hp, hpk⟩ := List.mem_map.mp hmem
      exact ⟨p, hp, by simp [hpk]⟩
    simp only [dictUpsert, hany, if_true, List.map_map]
    apply List.map_congr_left
    intro p hp
    by_cases hpk : (p.1 == k) = true
    · simp only [Function.comp, hpk, if_true]
      exact (beq_iff_eq.mp hpk).symm
    · simp only [Function.comp, hpk]
      simp [hpk]
  · rw [if_neg hmem, dictUpsert_of_not_mem m k v hmem, List.map_append]
    rfl

theorem foldl_dictUpsert_keys {β : Type} :
    ∀ (ps m : List (Int × β)),
      ((ps.foldl (fun acc p => dictUpsert acc p.1 p.2) m).map Prod.fst) =
        (ps.map Prod.fst).foldl
          (fun acc x => if x ∈ acc then acc else acc ++ [x]) (m.map Prod.fst)
  | [], _ => rfl
  | p :: rest, m => by
    simp only [List.foldl_cons, List.map_cons]
    rw [foldl_dictUpsert_keys rest (dictUpsert m p.1 p.2), dictUpsert_keys]

theorem dictOfPairs_length_distinct {β : Type} (ps : List (Int × β)) :
    (dictOfPairs ps).length = distinctCount (ps.map Prod.fst) := by
  have h := foldl_dictUpsert_keys ps []
  simp only [List.map_nil] at h
  simp only [distinctCount]
  rw [← h, List.length_map]
  rfl

/-- Claim C6, amended: the selector fails with the InvalidArgument-class
error whenever k exceeds the question count; when k is in range it fails with
the InvariantViolation-class error whenever the number of DISTINCT question
ids among the strong-model responses (the size of the deduplicating dict
comprehension the source builds) differs from the question count, and — with
the strong check passing — likewise for the weak-model responses.  In every
failure case the result is the error alone: no selection is performed. -/
theorem C6_selector_failures_amended
    (questions_db : List (Int × MMLUMathQuestion))
    (responses_db : List (Nat × ZeroShotFourOptionResponse)) (k : Nat) :
    (¬ k ≤ questions_db.length →
      select_subset_of_mmlu_questions questions_db responses_db k =
        .error (.invalidArgument "Desired subset size is too large.")) ∧
    (k ≤ questions_db.length →
      distinctCount (((responses_db.map Prod.snd).filter
          (fun r => r.model_id == strong_model_id)).map (fun r => r.question_id)) ≠
        questions_db.length →
      select_subset_of_mmlu_questions questions_db responses_db k =
        .error (.invariantViolation "There should be one expert response for each question.")) ∧
    (k ≤ questions_db.length →
      distinctCount (((responses_db.map Prod.snd).filter
          (fun r => r.model_id == strong_model_id)).map (fun r => r.question_id)) =
        questions_db.length →
      distinctCount (((responses_db.map Prod.snd).filter
          (fun r => r.model_id == weak_model_id)).map (fun r => r.question_id)) ≠
        questions_db.length →
      select_subset_of_mmlu_questions questions_db responses_db k =
        .error (.invariantViolation "There should be one non-expert response for each question.")) := by
  have hkeyS : ((((responses_db.map Prod.snd).filter
      (fun r => r.model_id == strong_model_id)).map
        (fun r => (r.question_id, r))).map Prod.fst) =
      ((responses_db.map Prod.snd).filter
        (fun r => r.model_id == strong_model_id)).map (fun r => r.question_id) := by
    simp only [List.map_map]
    rfl
  have hkeyW : ((((responses_db.map Prod.snd).filter
      (fun r => r.model_id == weak_model_id)).map
        (fun r => (r.question_id, r))).map Prod.fst) =
      ((responses_db.map Prod.snd).filter
        (fun r => r.model_id == weak_model_id)).map (fun r => r.question_id) := by
    simp only [List.map_map]
    rfl
  have hlenS : (dictOfPairs (((responses_db.map Prod.snd).filter
      (fun r => r.model_id == strong_model_id)).map
        (fun r => (r.question_id, r)))).length =
      distinctCount (((responses_db.map Prod.snd).filter
        (fun r => r.model_id == strong_model_id)).map (fun r => r.question_id)) := by
    rw [dictOfPairs_length_distinct, hkeyS]
  have hlenW : (dictOfPairs (((responses_db.map Prod.snd).filter
      (fun r => r.model_id == weak_model_id)).map
        (fun r => (r.question_id, r)))).length =
      distinctCount (((responses_db.map Prod.snd).filter
        (fun r => r.model_id == weak_model_id)).map (fun r => r.question_id)) := by
    rw [dictOfPairs_length_distinct, hkeyW]
  refine ⟨?_, ?_, ?_⟩
  · intro hk
    simp only [select_subset_of_mmlu_questions]
    rw [if_pos hk]
  · intro hk hcnt
    simp only [select_subset_of_mmlu_questions]
    rw [if_neg (not_not_intro hk), if_pos (by rw [hlenS]; exact hcnt)]
  · intro hk hok hcnt
    simp only [select_subset_of_mmlu_questions]
    rw [if_neg (not_not_intro hk),
      if_neg (not_not_intro (by rw [hlenS]; exact hok)),
      if_pos (by rw [hlenW]; exact hcnt)]

/-- Claim C6 counterexample: three strong-model responses over two questions
(two of them for question 1), so the raw strong response count (3) differs
from the question count (2), yet the selector succeeds, because the dict
comprehension deduplicates by question id before the length assert. -/
theorem C6_counterexample :
    ((c6_responses_db.map Prod.snd).filter
      (fun r => r.model_id == strong_model_id)).length = 3 ∧
    c6_questions_db.length = 2 ∧
    select_subset_of_mmlu_questions c6_questions_db c6_responses_db 2 =
      .ok [(1, mmlu_q1), (2, mmlu_q2)] :=
  ⟨by decide, rfl, by rfl⟩

/-- Witness for C6 at concrete failing inputs (k too large; duplicate strong
question ids leaving a distinct count short of the question count). -/
theorem C6_witness :
    select_subset_of_mmlu_questions c6_questions_db c6_responses_db 3 =
      .error (.invalidArgument "Desired subset size is too large.") ∧
    select_subset_of_mmlu_questions c2_questions_db c6_responses_db 1 =
      .error (.invariantViolation "There should be one expert response for each question.") :=
  ⟨(C6_selector_failures_amended c6_questions_db c6_responses_db 3).1 (by decide),
   (C6_selector_failures_amended c2_questions_db c6_responses_db 1).2.1
     (by decide) (by decide)⟩

theorem collapsePairs_headq (c : Char) : ∀ l : List Char, (collapsePairs c l).head? = l.head?
  | [] => rfl
  | [_] => rfl
  | a :: b :: rest => by
    by_cases h : (a == c && b == c) = true
    · have ha : a = c := beq_iff_eq.mp ((Bool.and_eq_true _ _).mp h).1
      have hab : collapsePairs c (a :: b :: rest) = c :: collapsePairs c rest := by
        simp only [collapsePairs]
        rw [if_pos h]
      rw [hab]
      simp [ha]
    · have hab : collapsePairs c (a :: b :: rest) = a :: collapsePairs c (b :: rest) := by
        simp only [collapsePairs]
        rw [if_neg h]
      rw [hab]
      rfl

theorem collapsePairs_ne_nil (c : Char) (l : List Char) (h : l ≠ []) :
    collapsePairs c l ≠ [] := by
  intro hnil
  have h1 := collapsePairs_headq c l
  rw [hnil] at h1
  cases l with
  | nil => exact h rfl
  | cons a t => simp at h1

theorem collapsePairs_getLastq (c : Char) :
    ∀ l : List Char, (collapsePairs c l).getLast? = l.getLast?
  | [] => rfl
  | [_] => rfl
  | a :: b :: rest => by
    by_cases h : (a == c && b == c) = true
    · have hab : collapsePairs c (a :: b :: rest) = c :: collapsePairs c rest := by
        simp only [collapsePairs]
        rw [if_pos h]
      cases rest with
      | nil =>
        have hb : b = c := beq_iff_eq.mp ((Bool.and_eq_true _ _).mp h).2
        rw [hab]
        simp [hb, collapsePairs]
      | cons r0 rs =>
        obtain ⟨x, xs, hx⟩ :=
          List.exists_cons_of_ne_nil (collapsePairs_ne_nil c (r0 :: rs) (by simp))
        calc (collapsePairs c (a :: b :: r0 :: rs)).getLast?
            = (c :: collapsePairs c (r0 :: rs)).getLast? := by rw [hab]
          _ = (collapsePairs c (r0 :: rs)).getLast? := by rw [hx, List.getLast?_cons_cons]
          _ = (r0 :: rs).getLast? := collapsePairs_getLastq c (r0 :: rs)
          _ = (a :: b :: r0 :: rs).getLast? := by
              rw [List.getLast?_cons_cons, List.getLast?_cons_cons]
    · obtain ⟨x, xs, hx⟩ :=
        List.exists_cons_of_ne_nil (collapsePairs_ne_nil c (b :: rest) (by simp))
      have hab : collapsePairs c (a :: b :: rest) = a :: collapsePairs c (b :: rest) := by
        simp only [collapsePairs]
        rw [if_neg h]
      calc (collapsePairs c (a :: b :: rest)).getLast?
          = (a :: collapsePairs c (b :: rest)).getLast? := by rw [hab]
        _ = (collapsePairs c (b :: rest)).getLast? := by rw [hx, List.getLast?_cons_cons]
        _ = (b :: rest).getLast? := collapsePairs_getLastq c (b :: rest)
        _ = (a :: b :: rest).getLast? := (List.getLast?_cons_cons).symm

theorem noRun3_tail {a : Char} {l : List Char} (h : noRun3 (a :: l) = true) :
    noRun3 l = true := by
  match l with
  | [] => rfl
  | [_] => rfl
  | b :: c2 :: rest =>
    simp only [noRun3, Bool.and_eq_true] at h
    exact h.2

theorem noRun3_eq_true_iff : ∀ l : List Char, (noRun3 l = true ↔
    ∀ x y z : Char, [x, y, z] <:+: l →
      ¬(isPySpace x = true ∧ isPySpace y = true ∧ isPySpace z = true))
  | [] => by
    constructor
    · intro _ x y z hinf
      have := hinf.length_le
      simp at this
    · intro _
      rfl
  | [a] => by
    constructor
    · intro _ x y z hinf
      have := hinf.length_le
      simp at this
    · intro _
      rfl
  | [a, b] => by
    constructor
    · intro _ x y z hinf
      have := hinf.length_le
      simp at this
    · intro _
      rfl
  | a :: b :: c2 :: rest => by
    constructor
    · intro h x y z hinf
      simp only [noRun3, Bool.and_eq_true] at h
      obtain ⟨hw, ht⟩ := h
      rcases List.infix_cons_iff.mp hinf with hpre | hinf2
      · obtain ⟨hxa, hpre1⟩ := List.cons_prefix_cons.mp hpre
        obtain ⟨hyb, hpre2⟩ := List.cons_prefix_cons.mp hpre1
        obtain ⟨hzc, _⟩ := List.cons_prefix_cons.mp hpre2
        rintro ⟨h1, h2, h3⟩
        rw [hxa] at h1
        rw [hyb] at h2
        rw [hzc] at h3
        rw [h1, h2, h3] at hw
        simp at hw
      · exact (noRun3_eq_true_iff (b :: c2 :: rest)).mp ht x y z hinf2
    · intro h
      simp only [noRun3, Bool.and_eq_true]
      constructor
      · have h0 := h a b c2 ⟨[], rest, rfl⟩
        cases hsa : isPySpace a <;> cases hsb : isPySpace b <;>
          cases hsc : isPySpace c2 <;> simp_all
      · apply (noRun3_eq_true_iff (b :: c2 :: rest)).mpr
        intro x y z hinf
        refine h x y z ?_
        obtain ⟨s, t, hst⟩ := hinf
        exact ⟨a :: s, t, by rw [← hst]; rfl⟩

theorem noRun3_of_infix {t l : List Char} (hinf : t <:+: l) (h : noRun3 l = true) :
    noRun3 t = true := by
  rw [noRun3_eq_true_iff] at h ⊢
  intro x y z hxyz
  exact h x y z (hxyz.trans hinf)

theorem dropTrail_prefix : ∀ l : List Char, dropTrail l <+: l
  | [] => List.nil_prefix
  | a :: rest => by
    simp only [dropTrail]
    cases hr : dropTrail rest with
    | nil =>
      by_cases hsp : isPySpace a = true
      · simp [hsp]
      · simp [hsp]
    | cons x xs =>
      have hpre := dropTrail_prefix rest
      rw [hr] at hpre
      exact List.cons_prefix_cons.mpr ⟨rfl, hpre⟩

theorem noRun3_pyStrip (l : List Char) (h : noRun3 l = true) :
    noRun3 (pyStrip l) = true := by
  have h1 : l.dropWhile isPySpace <:+ l := List.dropWhile_suffix _
  have h2 : dropTrail (l.dropWhile isPySpace) <+: l.dropWhile isPySpace :=
    dropTrail_prefix _
  exact noRun3_of_infix (h2.isInfix.trans h1.isInfix) h

theorem hasPair_tail {c a : Char} {l : List Char} (h : hasPair c (a :: l) = false) :
    hasPair c l = false := by
  cases l with
  | nil => rfl
  | cons b t =>
    cases hval : hasPair c (b :: t) with
    | false => rfl
    | true => simp [hasPair, hval] at h

theorem hasPair_head {c a : Char} {l : List Char} (h : hasPair c (a :: l) = false) :
    (a == c && (l.head?.getD c == c)) = false ∨ l = [] := by
  cases l with
  | nil => exact Or.inr rfl
  | cons b t =>
    left
    cases hv : (a == c && b == c) with
    | false => simpa using hv
    | true => simp [hasPair, hv] at h

theorem collapsePairs_id_of_no_pair (c : Char) :
    ∀ l : List Char, hasPair c l = false → collapsePairs c l = l
  | [], _ => rfl
  | [_], _ => rfl
  | a :: b :: rest, h => by
    have hcond : (a == c && b == c) = false := by
      cases hv : (a == c && b == c) with
      | false => rfl
      | true => simp [hasPair, hv] at h
    have hab : collapsePairs c (a :: b :: rest) = a :: collapsePairs c (b :: rest) := by
      simp only [collapsePairs]
      rw [if_neg (by simp [hcond])]
    rw [hab, collapsePairs_id_of_no_pair c (b :: rest) (hasPair_tail h)]

theorem replace4sp_id_of_no_pair :
    ∀ l : List Char, hasPair ' ' l = false → replace4sp l = l
  | [], _ => rfl
  | [_], _ => rfl
  | [_, _], _ => rfl
  | [_, _, _], _ => rfl
  | a :: b :: c :: d :: rest, h => by
    have hcond : (a == ' ' && b == ' ' && c == ' ' && d == ' ') = false := by
      cases hv : (a == ' ' && b == ' ' && c == ' ' && d == ' ') with
      | false => rfl
      | true =>
        have h1 := (Bool.and_eq_true _ _).mp hv
        have h2 := (Bool.and_eq_true _ _).mp h1.1
        have h3 := (Bool.and_eq_true _ _).mp h2.1
        simp [hasPair, h3.1, h3.2] at h
    have hab : replace4sp (a :: b :: c :: d :: rest) =
        a :: replace4sp (b :: c :: d :: rest) := by
      simp only [replace4sp]
      rw [if_neg (by simp [hcond])]
    rw [hab, replace4sp_id_of_no_pair (b :: c :: d :: rest) (hasPair_tail h)]

theorem noRun3_cons (a : Char) (X : List Char) (hX : noRun3 X = true)
    (hwin : ∀ x0 x1 t, X = x0 :: x1 :: t →
      (isPySpace a && isPySpace x0 && isPySpace x1) = false) :
    noRun3 (a :: X) = true := by
  cases X with
  | nil => rfl
  | cons x0 X1 =>
    cases X1 with
    | nil => rfl
    | cons x1 t =>
      simp only [noRun3, Bool.and_eq_true]
      exact ⟨by simp [hwin x0 x1 t rfl], hX⟩

theorem hasPair_cons (c a : Char) (X : List Char) (hX : hasPair c X = false)
    (hwin : ∀ x0 t, X = x0 :: t → (a == c && x0 == c) = false) :
    hasPair c (a :: X) = false := by
  cases X with
  | nil => rfl
  | cons x0 t =>
    simp only [hasPair]
    simp [hwin x0 t rfl, hX]

theorem noRun3_third_not_space {a b r0 : Char} {rs : List Char}
    (h : noRun3 (a :: b :: r0 :: rs) = true)
    (hsa : isPySpace a = true) (hsb : isPySpace b = true) :
    isPySpace r0 = false := by
  simp only [noRun3, Bool.and_eq_true] at h
  have hw := h.1
  cases hv : isPySpace r0 with
  | false => rfl
  | true =>
    rw [hsa, hsb, hv] at hw
    simp at hw

theorem hasPair_collapsePairs_self (c : Char) (hc : isPySpace c = true) :
    ∀ l : List Char, noRun3 l = true → hasPair c (collapsePairs c l) = false
  | [], _ => rfl
  | [_], _ => rfl
  | a :: b :: rest, h => by
    by_cases hcond : (a == c && b == c) = true
    · have ha : a = c := beq_iff_eq.mp ((Bool.and_eq_true _ _).mp hcond).1
      have hb : b = c := beq_iff_eq.mp ((Bool.and_eq_true _ _).mp hcond).2
      have hab : collapsePairs c (a :: b :: rest) = c :: collapsePairs c rest := by
        simp only [collapsePairs]
        rw [if_pos hcond]
      rw [hab]
      have ihr := hasPair_collapsePairs_self c hc rest (noRun3_tail (noRun3_tail h))
      apply hasPair_cons c c _ ihr
      intro x0 t hXeq
      cases rest with
      | nil => simp [collapsePairs] at hXeq
      | cons r0 rs =>
        have hx0 : x0 = r0 := by
          have hh := collapsePairs_headq c (r0 :: rs)
          rw [hXeq] at hh
          simpa using hh
        have hr0 : isPySpace r0 = false := by
          apply noRun3_third_not_space h
          · rw [ha]
            exact hc
          · rw [hb]
            exact hc
        have hr0c : (x0 == c) = false := by
          rw [hx0]
          cases hv : (r0 == c) with
          | false => rfl
          | true =>
            rw [beq_iff_eq.mp hv, hc] at hr0
            exact absurd hr0 (by simp)
        simp [hr0c]
    · have hab : collapsePairs c (a :: b :: rest) = a :: collapsePairs c (b :: rest) := by
        simp only [collapsePairs]
        rw [if_neg hcond]
      rw [hab]
      have ihr := hasPair_collapsePairs_self c hc (b :: rest) (noRun3_tail h)
      apply hasPair_cons c a _ ihr
      intro x0 t hXeq
      have hx0 : x0 = b := by
        have hh := collapsePairs_headq c (b :: rest)
        rw [hXeq] at hh
        simpa using hh
      rw [hx0]
      cases hv : (a == c && b == c) with
      | false => rfl
      | true => exact absurd hv hcond

theorem noRun3_collapsePairs (c : Char) (hc : isPySpace c = true) :
    ∀ l : List Char, noRun3 l = true → noRun3 (collapsePairs c l) = true
  | [], _ => rfl
  | [_], _ => rfl
  | a :: b :: rest, h => by
    by_cases hcond : (a == c && b == c) = true
    · have ha : a = c := beq_iff_eq.mp ((Bool.and_eq_true _ _).mp hcond).1
      have hb : b = c := beq_iff_eq.mp ((Bool.and_eq_true _ _).mp hcond).2
      have hab : collapsePairs c (a :: b :: rest) = c :: collapsePairs c rest := by
        simp only [collapsePairs]
        rw [if_pos hcond]
      rw [hab]
      have ihr := noRun3_collapsePairs c hc rest (noRun3_tail (noRun3_tail h))
      apply noRun3_cons c _ ihr
      intro x0 x1 t hXeq
      cases rest with
      | nil => simp [collapsePairs] at hXeq
      | cons r0 rs =>
        have hx0 : x0 = r0 := by
          have hh := collapsePairs_headq c (r0 :: rs)
          rw [hXeq] at hh
          simpa using hh
        have hr0 : isPySpace r0 = false := by
          apply noRun3_third_not_space h
          · rw [ha]
            exact hc
          · rw [hb]
            exact hc
        rw [hx0, hr0]
        simp
    · have hab : collapsePairs c (a :: b :: rest) = a :: collapsePairs c (b :: rest) := by
        simp only [collapsePairs]
        rw [if_neg hcond]
      rw [hab]
      have ihr := noRun3_collapsePairs c hc (b :: rest) (noRun3_tail h)
      apply noRun3_cons a _ ihr
      intro x0 x1 t hXeq
      have hx0 : x0 = b := by
        have hh := collapsePairs_headq c (b :: rest)
        rw [hXeq] at hh
        simpa using hh
      by_cases hsa : isPySpace a = true
      · by_cases hsb : isPySpace b = true
        · cases rest with
          | nil =>
            rw [show collapsePairs c [b] = [b] from rfl] at hXeq
            simp at hXeq
          | cons r0 rs =>
            have hr0 : isPySpace r0 = false := noRun3_third_not_space h hsa hsb
            have hbc : (b == c && r0 == c) = false := by
              cases hv : (r0 == c) with
              | false => simp [hv]
              | true =>
                rw [beq_iff_eq.mp hv, hc] at hr0
                exact absurd hr0 (by simp)
            have hX2 : collapsePairs c (b :: r0 :: rs) = b :: collapsePairs c (r0 :: rs) := by
              simp only [collapsePairs]
              rw [if_neg (by simp [hbc])]
            rw [hX2] at hXeq
            obtain ⟨-, htail⟩ := List.cons_eq_cons.mp hXeq
            have hx1 : x1 = r0 := by
              have hh := collapsePairs_headq c (r0 :: rs)
              rw [htail] at hh
              simpa using hh
            rw [hx1, hr0]
            simp
        · have hb' : isPySpace b = false := by
            cases hv : isPySpace b with
            | false => rfl
            | true => exact absurd hv hsb
          rw [hx0, hb']
          simp
      · have ha' : isPySpace a = false := by
          cases hv : isPySpace a with
          | false => rfl
          | true => exact absurd hv hsa
        rw [ha']
        simp

theorem hasPair_collapsePairs_other (c d : Char) (hdc : (d == c) = false) :
    ∀ l : List Char, hasPair c l = false → hasPair c (collapsePairs d l) = false
  | [], _ => rfl
  | [_], _ => rfl
  | a :: b :: rest, h => by
    by_cases hcond : (a == d && b == d) = true
    · have hab : collapsePairs d (a :: b :: rest) = d :: collapsePairs d rest := by
        simp only [collapsePairs]
        rw [if_pos hcond]
      rw [hab]
      have ihr := hasPair_collapsePairs_other c d hdc rest (hasPair_tail (hasPair_tail h))
      apply hasPair_cons c d _ ihr
      intro x0 t hXeq
      simp [hdc]
    · have hab : collapsePairs d (a :: b :: rest) = a :: collapsePairs d (b :: rest) := by
        simp only [collapsePairs]
        rw [if_neg hcond]
      rw [hab]
      have ihr := hasPair_collapsePairs_other c d hdc (b :: rest) (hasPair_tail h)
      apply hasPair_cons c a _ ihr
      intro x0 t hXeq
      have hx0 : x0 = b := by
        have hh := collapsePairs_headq d (b :: rest)
        rw [hXeq] at hh
        simpa using hh
      rw [hx0]
      cases hv : (a == c && b == c) with
      | false => rfl
      | true => simp [hasPair, hv] at h

theorem dropWhile_headq_not (p : Char → Bool) :
    ∀ l : List Char, ∀ a, (l.dropWhile p).head? = some a → p a = false
  | [], a, h => by simp [List.dropWhile] at h
  | x :: t, a, h => by
    by_cases hx : p x = true
    · rw [List.dropWhile_cons_of_pos hx] at h
      exact dropWhile_headq_not p t a h
    · have hx' : p x = false := by
        cases hv : p x with
        | false => rfl
        | true => exact absurd hv hx
      rw [List.dropWhile_cons_of_neg (by simp [hx'])] at h
      simp only [List.head?_cons, Option.some.injEq] at h
      rw [← h]
      exact hx'

theorem dropTrail_headq :
    ∀ l : List Char, ∀ a, (dropTrail l).head? = some a → l.head? = some a
  | [], a, h => by simp [dropTrail] at h
  | x :: t, a, h => by
    simp only [dropTrail] at h
    cases hr : dropTrail t with
    | nil =>
      rw [hr] at h
      by_cases hx : isPySpace x = true
      · simp [hx] at h
      · have hx' : isPySpace x = false := by
          cases hv : isPySpace x with
          | false => rfl
          | true => exact absurd hv hx
        simp only [hx', Bool.false_eq_true, if_false, List.head?_cons,
          Option.some.injEq] at h
        rw [← h]
        rfl
    | cons y ys =>
      rw [hr] at h
      simp only [List.head?_cons, Option.some.injEq] at h
      rw [← h]
      rfl

theorem dropTrail_getLastq_not :
    ∀ l : List Char, ∀ a, (dropTrail l).getLast? = some a → isPySpace a = false
  | [], a, h => by simp [dropTrail] at h
  | x :: t, a, h => by
    simp only [dropTrail] at h
    cases hr : dropTrail t with
    | nil =>
      rw [hr] at h
      by_cases hx : isPySpace x = true
      · simp [hx] at h
      · have hx' : isPySpace x = false := by
          cases hv : isPySpace x with
          | false => rfl
          | true => exact absurd hv hx
        simp only [hx', Bool.false_eq_true, if_false] at h
        have hax : x = a := by simpa using h
        rw [← hax]
        exact hx'
    | cons y ys =>
      rw [hr] at h
      rw [List.getLast?_cons_cons] at h
      exact dropTrail_getLastq_not t a (by rw [hr]; exact h)

theorem dropWhile_id_of_head (p : Char → Bool) (l : List Char)
    (h : ∀ a, l.head? = some a → p a = false) : l.dropWhile p = l := by
  cases l with
  | nil => rfl
  | cons x t =>
    have hx := h x rfl
    simp [List.dropWhile, hx]

theorem dropTrail_id_of_getLast :
    ∀ l : List Char, (∀ a, l.getLast? = some a → isPySpace a = false) →
      dropTrail l = l
  | [], _ => rfl
  | x :: t, h => by
    cases t with
    | nil =>
      have hx := h x rfl
      simp [dropTrail, hx]
    | cons y ys =>
      have ht : dropTrail (y :: ys) = y :: ys :=
        dropTrail_id_of_getLast (y :: ys)
          (fun a ha => h a (by rw [List.getLast?_cons_cons]; exact ha))
      have hstep : dropTrail (x :: y :: ys) =
          match dropTrail (y :: ys) with
          | [] => if isPySpace x = true then [] else [x]
          | r => x :: r := rfl
      rw [hstep, ht]

theorem pyStrip_id (l : List Char)
    (hh : ∀ a, l.head? = some a → isPySpace a = false)
    (hl : ∀ a, l.getLast? = some a → isPySpace a = false) : pyStrip l = l := by
  rw [pyStrip, dropWhile_id_of_head isPySpace l hh, dropTrail_id_of_getLast l hl]

theorem pyStrip_headq_not (l : List Char) (a : Char)
    (h : (pyStrip l).head? = some a) : isPySpace a = false :=
  dropWhile_headq_not isPySpace l a (dropTrail_headq (l.dropWhile isPySpace) a h)

theorem pyStrip_getLastq_not (l : List Char) (a : Char)
    (h : (pyStrip l).getLast? = some a) : isPySpace a = false :=
  dropTrail_getLastq_not (l.dropWhile isPySpace) a h

theorem normList_idem (l : List Char) (h : noRun3 l = true) :
    normList (normList l) = normList l := by
  have h0 : noRun3 (pyStrip l) = true := noRun3_pyStrip l h
  have hc1 : isPySpace ' ' = true := by decide
  have hc2 : isPySpace '\n' = true := by decide
  have hm_nopair : hasPair ' ' (collapsePairs ' ' (pyStrip l)) = false :=
    hasPair_collapsePairs_self ' ' hc1 (pyStrip l) h0
  have hm_norun : noRun3 (collapsePairs ' ' (pyStrip l)) = true :=
    noRun3_collapsePairs ' ' hc1 (pyStrip l) h0
  have hr4 : replace4sp (collapsePairs ' ' (pyStrip l)) = collapsePairs ' ' (pyStrip l) :=
    replace4sp_id_of_no_pair _ hm_nopair
  have hF_noNL : hasPair '\n' (collapsePairs '\n' (collapsePairs ' ' (pyStrip l))) = false :=
    hasPair_collapsePairs_self '\n' hc2 _ hm_norun
  have hF_noSP : hasPair ' ' (collapsePairs '\n' (collapsePairs ' ' (pyStrip l))) = false :=
    hasPair_collapsePairs_other ' ' '\n' (by decide) _ hm_nopair
  have hNL : normList l = collapsePairs '\n' (collapsePairs ' ' (pyStrip l)) := by
    rw [normList, hr4]
  have hFhead : ∀ a, (collapsePairs '\n' (collapsePairs ' ' (pyStrip l))).head? = some a →
      isPySpace a = false := by
    intro a ha
    rw [collapsePairs_headq, collapsePairs_headq] at ha
    exact pyStrip_headq_not l a ha
  have hFlast : ∀ a, (collapsePairs '\n' (collapsePairs ' ' (pyStrip l))).getLast? = some a →
      isPySpace a = false := by
    intro a ha
    rw [collapsePairs_getLastq, collapsePairs_getLastq] at ha
    exact pyStrip_getLastq_not l a ha
  rw [hNL, normList, pyStrip_id _ hFhead hFlast,
    collapsePairs_id_of_no_pair ' ' _ hF_noSP,
    replace4sp_id_of_no_pair _ hF_noSP,
    collapsePairs_id_of_no_pair '\n' _ hF_noNL]

/-- Claim C1 counterexample: four consecutive spaces collapse to TWO spaces
(the two-space pass halves them and the four-space pass then finds no
four-space run), three consecutive spaces are NOT left unchanged (they
collapse to two), and a second application of the normalization changes the
output of the first for the three-space input — all refuting the claimed
quirk at concrete inputs. -/
theorem C1_counterexample :
    normalizeContent "a    b" = "a  b" ∧ normalizeContent "a    b" ≠ "a b" ∧
    normalizeContent "a   b" = "a  b" ∧ normalizeContent "a   b" ≠ "a   b" ∧
    normalizeContent (normalizeContent "a   b") ≠ normalizeContent "a   b" :=
  ⟨by decide, by decide, by decide, by decide, by decide⟩

/-- Claim C1, amended: under the Gateway's normalization an input with
exactly two consecutive spaces collapses them to one space, an input with
exactly four consecutive spaces collapses them to two spaces, an input with
exactly three consecutive spaces collapses them to two spaces, and applying
the normalization a second time changes nothing for inputs containing no
whitespace run longer than 2 characters. -/
theorem C1_normalization_amended :
    normalizeContent "a  b" = "a b" ∧
    normalizeContent "a    b" = "a  b" ∧
    normalizeContent "a   b" = "a  b" ∧
    ∀ s : String, noRun3 s.toList = true →
      normalizeContent (normalizeContent s) = normalizeContent s := by
  refine ⟨by decide, by decide, by decide, ?_⟩
  intro s hs
  have hround : ((normList s.toList).asString).toList = normList s.toList := rfl
  simp only [normalizeContent, hround]
  rw [normList_idem s.toList hs]

/-- Witness for C1's amended idempotence at a concrete input whose
whitespace runs have length exactly 2. -/
theorem C1_witness :
    noRun3 ("ab  cd\n\nef".toList) = true ∧
    normalizeContent (normalizeContent "ab  cd\n\nef") = normalizeContent "ab  cd\n\nef" :=
  ⟨by decide, C1_normalization_amended.2.2.2 "ab  cd\n\nef" (by decide)⟩
